import Mathlib

/-!
Verification of the AP Semantic Query Engine against its specification.

The repository ships the React frontend (`frontend/src/App.jsx` and the
history page). The FastAPI backend (PlanValidator, SqlCompiler, SafetyGuard,
PipelineOrchestrator) is not part of the source tree, so those components are
modelled here from the specification text; the frontend pieces (pipeline step
table, history filtering, the `api` fetch helper) are embedded directly from
the JavaScript source.
-/

/- ===== String utilities (JavaScript string semantics) ===== -/

/-- Prefix test on character lists (used to model JavaScript `includes`). -/
def startsWithChars : List Char → List Char → Bool
  | [], _ => true
  | _ :: _, [] => false
  | a :: as, b :: bs => a == b && startsWithChars as bs

/-- Contiguous-substring test on character lists. -/
def containsChars (needle : List Char) : List Char → Bool
  | [] => needle.isEmpty
  | c :: rest => startsWithChars needle (c :: rest) || containsChars needle rest

/-- JavaScript `hay.includes(needle)`: contiguous substring test. -/
def strIncludes (hay needle : String) : Bool :=
  containsChars needle.data hay.data

/-- JavaScript `toLowerCase` (ASCII behaviour). -/
def lowerStr (s : String) : String := ⟨s.data.map Char.toLower⟩

/-- JavaScript `toUpperCase` (ASCII behaviour). -/
def upperStr (s : String) : String := ⟨s.data.map Char.toUpper⟩

/- ===== Data model =====
Modelled from the spec: the canonical plan contract of section 6 and the data
model of section 3 (the backend that declares these wire shapes is not in the
source tree). -/

/-- Modelled from the spec: a metric entry `{"column": string, "agg": string}`. -/
structure PlanMetric where
  column : String
  agg : String
deriving DecidableEq

/-- Modelled from the spec: a filter entry `{"column", "op", "value(s)"}`. -/
structure PlanFilter where
  column : String
  op : String
  values : List String
deriving DecidableEq

/-- Modelled from the spec: an order-by entry `{"column", "dir"}`. -/
structure OrderBySpec where
  column : String
  dir : String
deriving DecidableEq

/-- Modelled from the spec: the CanonicalPlan wire shape of section 6. -/
structure CanonicalPlan where
  intent : String
  fact_table : String
  dimensions : List String
  metrics : List PlanMetric
  filters : List PlanFilter
  group_by : List String
  order_by : List OrderBySpec
  limit : Nat
deriving DecidableEq

/-- Modelled from the spec: one table of the SchemaCatalog snapshot. -/
structure SchemaTable where
  name : String
  columns : List String
deriving DecidableEq

/-- Modelled from the spec: a TableMapping row of the MappingStore. -/
structure TableMapping where
  table : String
  role : String
  priority : String
  tenant_column : Option String
  business_name : String
deriving DecidableEq

/-- Modelled from the spec: a human-approved join edge. -/
structure ApprovedJoin where
  left_table : String
  left_column : String
  right_table : String
  right_column : String
deriving DecidableEq

/-- Modelled from the spec: the shared snapshot handed to every stage
(schema catalog, mapping store, approved joins, configured limit ceiling). -/
structure EngineEnv where
  schema : List SchemaTable
  mappings : List TableMapping
  joins : List ApprovedJoin
  maxLimit : Nat
deriving DecidableEq

/-- Modelled from the spec: the ValidationError codes of section 4.2. -/
inductive ECode
  | E_TABLE_UNKNOWN
  | E_COLUMN_UNKNOWN
  | E_NO_TENANT_FILTER
  | E_JOIN_NOT_APPROVED
  | E_AGG_NOT_ALLOWED
deriving DecidableEq

/-- Modelled from the spec: the ValidationWarning codes of section 4.2. -/
inductive WCode
  | W_LIMIT_CLAMPED
  | W_IMPLICIT_GROUP_BY
deriving DecidableEq

/-- Modelled from the spec: a ValidationError (code plus the offending name). -/
structure VError where
  code : ECode
  subject : String
deriving DecidableEq

/-- Modelled from the spec: a ValidationWarning. -/
structure VWarning where
  code : WCode
  subject : String
deriving DecidableEq

/-- Modelled from the spec: the batch result of one validation pass. -/
structure ValidationResult where
  errors : List VError
  warnings : List VWarning
deriving DecidableEq

/- ===== PlanValidator (modelled from the spec, section 4.2) ===== -/

/-- A table name is known when it appears in the schema snapshot. -/
def tableKnown (env : EngineEnv) (t : String) : Bool :=
  env.schema.any (fun s => s.name == t)

/-- A column is known when one of the given tables declares it. -/
def columnKnown (env : EngineEnv) (tables : List String) (c : String) : Bool :=
  env.schema.any (fun s => tables.contains s.name && s.columns.contains c)

/-- Every table a plan references: the fact table and each dimension. -/
def referencedTables (plan : CanonicalPlan) : List String :=
  plan.fact_table :: plan.dimensions

/-- Every column a plan references: metrics, filters, group-by, order-by. -/
def referencedColumns (plan : CanonicalPlan) : List String :=
  plan.metrics.map (fun m => m.column) ++ plan.filters.map (fun f => f.column) ++
    plan.group_by ++ plan.order_by.map (fun o => o.column)

/-- Modelled from the spec: `E_TABLE_UNKNOWN` for each referenced table absent
from the SchemaCatalog. -/
def checkTables (env : EngineEnv) (plan : CanonicalPlan) : List VError :=
  (referencedTables plan).filterMap (fun t =>
    if tableKnown env t then none else some ⟨ECode.E_TABLE_UNKNOWN, t⟩)

/-- Modelled from the spec: `E_COLUMN_UNKNOWN` for each referenced column
absent from every referenced known table. -/
def checkColumns (env : EngineEnv) (plan : CanonicalPlan) : List VError :=
  let known := (referencedTables plan).filter (fun t => tableKnown env t)
  (referencedColumns plan).filterMap (fun c =>
    if columnKnown env known c then none else some ⟨ECode.E_COLUMN_UNKNOWN, c⟩)

/-- A filter binds a column to exactly one value: an equality filter on that
column carrying a single value. -/
def bindsSingleValue (f : PlanFilter) (c : String) : Bool :=
  f.column == c && f.op == "eq" && f.values.length == 1

/-- Modelled from the spec: `E_NO_TENANT_FILTER` when the fact table has a
configured tenant_column but no filter binds it to a single value. The check
takes no per-request switch: it runs on every plan. -/
def checkTenant (env : EngineEnv) (plan : CanonicalPlan) : List VError :=
  match env.mappings.find? (fun m => m.table == plan.fact_table) with
  | none => []
  | some m =>
    match m.tenant_column with
    | none => []
    | some c =>
      if plan.filters.any (fun f => bindsSingleValue f c) then []
      else [⟨ECode.E_NO_TENANT_FILTER, c⟩]

/-- One breadth step of the join graph: add every table joined to a table
already reached. -/
def joinStep (js : List ApprovedJoin) (acc : List String) : List String :=
  js.foldl (fun a j =>
    let a1 := if a.contains j.left_table && !a.contains j.right_table
      then j.right_table :: a else a
    if a1.contains j.right_table && !a1.contains j.left_table
      then j.left_table :: a1 else a1) acc

/-- Iterated breadth steps (fuel-bounded reachability). -/
def reachAux (js : List ApprovedJoin) : Nat → List String → List String
  | 0, acc => acc
  | n + 1, acc => reachAux js n (joinStep js acc)

/-- A join path exists between two tables using only approved edges. -/
def joinReachable (js : List ApprovedJoin) (a b : String) : Bool :=
  (reachAux js (js.length + 1) [a]).contains b

/-- Modelled from the spec: `E_JOIN_NOT_APPROVED` for each known dimension
with no approved path from the fact table. -/
def checkJoins (env : EngineEnv) (plan : CanonicalPlan) : List VError :=
  (plan.dimensions.filter (fun d => tableKnown env d)).filterMap (fun d =>
    if d == plan.fact_table || joinReachable env.joins plan.fact_table d then none
    else some ⟨ECode.E_JOIN_NOT_APPROVED, d⟩)

/-- Modelled from the spec: the allowed aggregation set. -/
def allowedAggs : List String := ["SUM", "COUNT", "AVG", "MIN", "MAX"]

/-- Modelled from the spec: `E_AGG_NOT_ALLOWED` for aggregations outside the
allowed set. -/
def checkAggs (plan : CanonicalPlan) : List VError :=
  plan.metrics.filterMap (fun m =>
    if allowedAggs.contains m.agg then none else some ⟨ECode.E_AGG_NOT_ALLOWED, m.agg⟩)

/-- Modelled from the spec: `W_LIMIT_CLAMPED` when the requested limit exceeds
the configured ceiling (a warning, never an error). -/
def limitWarnings (env : EngineEnv) (plan : CanonicalPlan) : List VWarning :=
  if env.maxLimit < plan.limit then [⟨WCode.W_LIMIT_CLAMPED, Nat.repr plan.limit⟩] else []

/-- Modelled from the spec: `W_IMPLICIT_GROUP_BY` when metrics come without an
explicit group_by while dimensions are requested. -/
def groupByWarnings (plan : CanonicalPlan) : List VWarning :=
  if !plan.metrics.isEmpty && plan.group_by.isEmpty && !plan.dimensions.isEmpty
  then [⟨WCode.W_IMPLICIT_GROUP_BY, plan.fact_table⟩] else []

/-- Modelled from the spec: the PlanValidator. It runs the fixed, ordered
sequence of checks and returns the complete batch — the error list is the
concatenation of every check's contribution, so no check is ever skipped and
no failure stops the pass early. -/
def validatePlan (env : EngineEnv) (plan : CanonicalPlan) : ValidationResult :=
  { errors := checkTables env plan ++ checkColumns env plan ++ checkTenant env plan ++
      checkJoins env plan ++ checkAggs plan,
    warnings := limitWarnings env plan ++ groupByWarnings plan }

/- ===== SqlCompiler (modelled from the spec, section 4.4) ===== -/

/-- Render one approved join edge as a JOIN clause fragment. -/
def renderJoin (e : ApprovedJoin) : String :=
  " JOIN " ++ e.right_table ++ " ON " ++ e.left_table ++ "." ++ e.left_column ++
    " = " ++ e.right_table ++ "." ++ e.right_column

/-- JOIN clauses follow the resolved path order. -/
def joinClauses (paths : List (List ApprovedJoin)) : String :=
  String.join (paths.map (fun p => String.join (p.map renderJoin)))

/-- Deterministic alias for an aggregated metric. -/
def metricAlias (m : PlanMetric) : String := lowerStr m.agg ++ "_" ++ m.column

/-- SELECT lists dimensions then aggregated metrics with deterministic aliases. -/
def selectList (plan : CanonicalPlan) : String :=
  String.intercalate ", "
    (plan.dimensions ++ plan.metrics.map (fun m =>
      m.agg ++ "(" ++ m.column ++ ") AS " ++ metricAlias m))

/-- Positional parameter names, derived from the filter index. -/
def paramName (i : Nat) : String := "p" ++ Nat.repr i

/-- SQL spelling of a filter operator. -/
def opSql (op : String) : String :=
  if op == "eq" then "=" else if op == "in" then "IN" else op

/-- One WHERE condition: the literal value becomes a bound parameter, never
text inside the SQL. -/
def filterCondition (i : Nat) (f : PlanFilter) : String :=
  f.column ++ " " ++ opSql f.op ++ " :" ++ paramName i

/-- WHERE combines all plan filters (the mandatory tenant filter among them). -/
def whereClause (plan : CanonicalPlan) : String :=
  if plan.filters.isEmpty then ""
  else " WHERE " ++ String.intercalate " AND "
    (plan.filters.enum.map (fun p => filterCondition p.1 p.2))

/-- GROUP BY mirrors the plan's group_by list. -/
def groupClause (plan : CanonicalPlan) : String :=
  if plan.group_by.isEmpty then ""
  else " GROUP BY " ++ String.intercalate ", " plan.group_by

/-- ORDER BY renders the plan's order_by list. -/
def orderClause (plan : CanonicalPlan) : String :=
  if plan.order_by.isEmpty then ""
  else " ORDER BY " ++ String.intercalate ", "
    (plan.order_by.map (fun o => o.column ++ " " ++ o.dir))

/-- The compiled statement up to (excluding) the LIMIT clause. -/
def sqlBody (plan : CanonicalPlan) (paths : List (List ApprovedJoin)) : String :=
  "SELECT " ++ selectList plan ++ " FROM " ++ plan.fact_table ++ joinClauses paths ++
    whereClause plan ++ groupClause plan ++ orderClause plan

/-- Modelled from the spec: a CompiledQuery — SQL text plus the ordered
parameter list. -/
structure CompiledQuery where
  sql : String
  params : List (String × String)
deriving DecidableEq

/-- The ordered parameter list: one bound (name, value) pair per filter value,
in filter order. -/
def filterParams (fs : List PlanFilter) : List (String × String) :=
  fs.enum.flatMap (fun p => p.2.values.map (fun v => (paramName p.1, v)))

/-- Modelled from the spec: the SqlCompiler — a pure function of the validated
plan, the resolved join paths and the snapshot; LIMIT is
`min(plan.limit, configured_ceiling)`. -/
def compilePlan (env : EngineEnv) (plan : CanonicalPlan)
    (paths : List (List ApprovedJoin)) : CompiledQuery :=
  { sql := sqlBody plan paths ++ " LIMIT " ++ Nat.repr (Nat.min plan.limit env.maxLimit),
    params := filterParams plan.filters }

/-- Modelled from the spec: the orchestrator's guarantee that validation
precedes compilation — a plan with any ValidationError is never compiled. -/
def compileIfValid (env : EngineEnv) (plan : CanonicalPlan)
    (paths : List (List ApprovedJoin)) : Option CompiledQuery :=
  if (validatePlan env plan).errors.isEmpty then some (compilePlan env plan paths)
  else none

/- ===== SafetyGuard (modelled from the spec, section 4.5) ===== -/

/-- The single-quote character. -/
def sQuote : Char := Char.ofNat 39

/-- Scan for a statement terminator outside a quoted string. -/
def semiOutside : List Char → Bool → Bool
  | [], _ => false
  | c :: rest, inStr =>
    if c == sQuote then semiOutside rest (!inStr)
    else if c == ';' && !inStr then true
    else semiOutside rest inStr

/-- A statement terminator occurs outside of every string literal, which is
how a second statement is smuggled in. -/
def hasUnquotedSemicolon (s : String) : Bool := semiOutside s.data false

/-- Cut a character stream into maximal alphabetic words (the accumulator
holds the current word reversed). -/
def wordsAux : List Char → List Char → List String
  | [], acc => if acc.isEmpty then [] else [⟨acc.reverse⟩]
  | c :: rest, acc =>
    if c.isAlpha then wordsAux rest (c :: acc)
    else if acc.isEmpty then wordsAux rest []
    else ⟨acc.reverse⟩ :: wordsAux rest []

/-- The uppercase words of a statement (split at non-letters). -/
def sqlWords (s : String) : List String :=
  wordsAux (s.data.map Char.toUpper) []

/-- Modelled from the spec: the forbidden DDL/DML keyword list. -/
def ddlDmlKeywords : List String :=
  ["CREATE", "DROP", "ALTER", "INSERT", "UPDATE", "DELETE", "GRANT", "TRUNCATE", "MERGE"]

/-- Modelled from the spec: references to catalog/metadata objects. -/
def mentionsCatalog (s : String) : Bool :=
  strIncludes (lowerStr s) "information_schema"

/-- The text begins (after leading blanks) with SELECT. -/
def isSelectStatement (s : String) : Bool :=
  startsWithChars "SELECT".data
    ((s.data.dropWhile (fun c => c.isWhitespace)).map Char.toUpper)

/-- Modelled from the spec: the SafetyGuard. It accepts only what it can
positively classify as a single safe read statement: a SELECT with no
unquoted terminator, no DDL/DML keyword and no catalog reference; everything
else is rejected (fail closed). -/
def checkSafety (sql : String) : Bool :=
  isSelectStatement sql && !hasUnquotedSemicolon sql &&
    !(sqlWords sql).any (fun w => ddlDmlKeywords.contains w) && !mentionsCatalog sql

/- ===== PipelineOrchestrator =====
The stage list and its identifiers are embedded from the frontend source
(`PIPELINE_STEPS`, App.jsx lines 97-107, icons omitted); the stage state
machine itself is modelled from the spec, section 4.6, because the backend
orchestrator is not in the source tree. -/

/-- The nine pipeline stages, in the fixed order the frontend displays them. -/
inductive PipelineStage
  | question_validation
  | intent_detection
  | schema_load
  | plan_generation
  | plan_validation
  | sql_compilation
  | safety_validation
  | query_execution
  | narration
deriving DecidableEq, BEq

/-- The string identifier of each stage, as keyed by the frontend. -/
def stageId : PipelineStage → String
  | .question_validation => "question_validation"
  | .intent_detection => "intent_detection"
  | .schema_load => "schema_load"
  | .plan_generation => "plan_generation"
  | .plan_validation => "plan_validation"
  | .sql_compilation => "sql_compilation"
  | .safety_validation => "safety_validation"
  | .query_execution => "query_execution"
  | .narration => "narration"

/-- All stages in pipeline order. -/
def allStages : List PipelineStage :=
  [.question_validation, .intent_detection, .schema_load, .plan_generation,
   .plan_validation, .sql_compilation, .safety_validation, .query_execution, .narration]

/-- One entry of the frontend's `PIPELINE_STEPS` table (App.jsx 97-107):
the step identifier and its display label (the icon is presentation only). -/
structure PipelineStepDef where
  id : String
  label : String
deriving DecidableEq

/-- The frontend's `PIPELINE_STEPS` constant, embedded verbatim from App.jsx. -/
def PIPELINE_STEPS : List PipelineStepDef :=
  [⟨"question_validation", "Validate"⟩,
   ⟨"intent_detection", "Intent"⟩,
   ⟨"schema_load", "Schema"⟩,
   ⟨"plan_generation", "Planner"⟩,
   ⟨"plan_validation", "Validator"⟩,
   ⟨"sql_compilation", "SQL Build"⟩,
   ⟨"safety_validation", "Safety"⟩,
   ⟨"query_execution", "Execute"⟩,
   ⟨"narration", "Narrate"⟩]

/-- The frontend's initial step map (App.jsx `runPipeline`, line 758): every
step identifier is set to the status string "pending" before the run. -/
def initialPipelineSteps : List (String × String) :=
  PIPELINE_STEPS.map (fun d => (d.id, "pending"))

/-- Modelled from the spec: the per-stage status values of a
PipelineStepResult. -/
inductive StepStatus
  | pending
  | running
  | success
  | error
  | skipped
deriving DecidableEq, BEq

/-- The caller's per-request toggles for the two optional stages. -/
structure RunFlags where
  execute : Bool
  narrate : Bool
deriving DecidableEq

/-- A stage is enabled unless it is one of the optional stages the caller
switched off. -/
def stageEnabled (f : RunFlags) : PipelineStage → Bool
  | .query_execution => f.execute
  | .narration => f.narrate
  | _ => true

/-- Modelled from the spec: the status a stage ends with, given whether an
earlier hard error already halted the run. A halted stage stays pending; a
disabled stage is marked skipped; otherwise the stage's own outcome decides
between success and error. -/
def stageStatus (f : RunFlags) (outcome : PipelineStage → Bool)
    (halted : Bool) (s : PipelineStage) : StepStatus :=
  if halted then StepStatus.pending
  else if stageEnabled f s then
    (if outcome s then StepStatus.success else StepStatus.error)
  else StepStatus.skipped

/-- Whether the run is halted after this stage: it already was, or the stage
ran (was enabled) and ended in a hard error. -/
def nextHalted (f : RunFlags) (outcome : PipelineStage → Bool)
    (halted : Bool) (s : PipelineStage) : Bool :=
  halted || (stageEnabled f s && !outcome s)

/-- Modelled from the spec: run the listed stages in order, threading the
halted flag, and record one (stage, status) result per stage. -/
def runStages (f : RunFlags) (outcome : PipelineStage → Bool) :
    List PipelineStage → Bool → List (PipelineStage × StepStatus)
  | [], _ => []
  | s :: rest, halted =>
    (s, stageStatus f outcome halted s) ::
      runStages f outcome rest (nextHalted f outcome halted s)

/-- Modelled from the spec: one full pipeline run over all nine stages,
starting un-halted. `outcome s = true` means stage `s` succeeds when it runs. -/
def runPipeline (f : RunFlags) (outcome : PipelineStage → Bool) :
    List (PipelineStage × StepStatus) :=
  runStages f outcome allStages false

/- ===== History page filtering (embedded from src/unnamed/part_000) ===== -/

/-- One row of the history table as the filter sees it; `none` models a
missing (null/undefined) field, which JavaScript optional chaining turns into
a non-match. -/
structure HistoryItem where
  question : Option String
  intent : Option String
  sql : Option String
  status : String
deriving DecidableEq

/-- JavaScript `field?.toLowerCase().includes(term)` for one optional field. -/
def optIncludesLower (field : Option String) (term : String) : Bool :=
  match field with
  | none => false
  | some s => strIncludes (lowerStr s) term

/-- The search predicate of `filteredHistory` (part_000 lines 217-225):
the lowercased term must occur in the lowercased question, intent or sql. -/
def matchesSearch (searchTerm : String) (it : HistoryItem) : Bool :=
  let term := lowerStr searchTerm
  optIncludesLower it.question term || optIncludesLower it.intent term ||
    optIncludesLower it.sql term

/-- The history page's `filteredHistory` memo (part_000 lines 214-232): apply
the search filter when the term is non-empty, then the status filter when it
is not "all". -/
def filteredHistory (history : List HistoryItem)
    (searchTerm statusFilter : String) : List HistoryItem :=
  let items := if searchTerm == "" then history
    else history.filter (fun it => matchesSearch searchTerm it)
  if statusFilter == "all" then items
  else items.filter (fun it => it.status == statusFilter)

/-- The membership condition `filteredHistory` actually implements. -/
def historyMatches (it : HistoryItem) (searchTerm statusFilter : String) : Bool :=
  (searchTerm == "" || matchesSearch searchTerm it) &&
    (statusFilter == "all" || it.status == statusFilter)

/-- The claim's wording of the search condition: the lowercased term is a
substring of the item's question, intent, or sql (the fields taken as they
are, not lowercased). Stated to be compared against `filteredHistory`. -/
def claimedHistoryMatch (it : HistoryItem) (searchTerm statusFilter : String) : Bool :=
  let term := lowerStr searchTerm
  (searchTerm == "" ||
    (match it.question with | none => false | some s => strIncludes s term) ||
    (match it.intent with | none => false | some s => strIncludes s term) ||
    (match it.sql with | none => false | some s => strIncludes s term)) &&
  (statusFilter == "all" || it.status == statusFilter)

/- ===== The shared `api` fetch helper (embedded from part_000 lines 125-133) ===== -/

/-- The parsed JSON body as the helper consumes it: the optional `detail`
field plus the remaining payload, kept opaque as key/value pairs. -/
structure ApiBody where
  detail : Option String
  payload : List (String × String)
deriving DecidableEq

/-- The empty object `res.json().catch(() => ({}))` falls back to. -/
def emptyBody : ApiBody := { detail := none, payload := [] }

/-- An HTTP response as the helper observes it: the ok flag, the status text,
and the JSON body when the body parses (`none` models a parse failure). -/
structure ApiResponse where
  ok : Bool
  statusText : String
  jsonBody : Option ApiBody
deriving DecidableEq

/-- JavaScript `d || fallback` on an optional string: the fallback is used
when the value is missing or is the empty string (both are falsy). -/
def jsOrElse (d : Option String) (fallback : String) : String :=
  match d with
  | none => fallback
  | some s => if s == "" then fallback else s

/-- The `api` helper (part_000 lines 125-133): parse the body, falling back to
the empty object; return the data when the response is ok, otherwise throw an
Error built from `data.detail || res.statusText`. -/
def api (res : ApiResponse) : Except String ApiBody :=
  let data := res.jsonBody.getD emptyBody
  if res.ok then Except.ok data
  else Except.error (jsOrElse data.detail res.statusText)

/-- The claim's wording of the thrown message: the detail field itself, or the
status text only when detail is absent. Stated to be compared against `api`. -/
def claimedApiError (res : ApiResponse) : String :=
  match (res.jsonBody.getD emptyBody).detail with
  | some s => s
  | none => res.statusText

/- ===== Concrete instances used by witnesses and counterexamples ===== -/

/-- Demo mapping: `orders` is a fact table with tenant column `tenant_id`. -/
def mapDemo : TableMapping :=
  { table := "orders", role := "fact", priority := "silver",
    tenant_column := some "tenant_id", business_name := "Orders" }

/-- Demo snapshot: two tables, one fact mapping, no approved joins, limit
ceiling 500. -/
def envDemo : EngineEnv :=
  { schema := [⟨"orders", ["tenant_id", "amount", "region"]⟩,
               ⟨"customers", ["id", "name"]⟩],
    mappings := [mapDemo],
    joins := [],
    maxLimit := 500 }

/-- Demo plan lacking any tenant filter (used for C1). -/
def planNoTenant : CanonicalPlan :=
  { intent := "total_amount", fact_table := "orders", dimensions := [],
    metrics := [⟨"amount", "SUM"⟩], filters := [], group_by := [],
    order_by := [], limit := 10 }

/-- Demo plan requesting limit 100000 against the ceiling of 500 (C4); it is
otherwise valid, including the mandatory tenant filter. -/
def planBigLimit : CanonicalPlan :=
  { intent := "total_amount", fact_table := "orders", dimensions := [],
    metrics := [⟨"amount", "SUM"⟩],
    filters := [⟨"tenant_id", "eq", ["42"]⟩], group_by := [],
    order_by := [], limit := 100000 }

/-- Demo plan referencing an unknown table, an unknown column and lacking the
tenant filter (C5). -/
def planThreeFaults : CanonicalPlan :=
  { intent := "demo", fact_table := "orders", dimensions := ["ghost_dim"],
    metrics := [⟨"ghost_col", "SUM"⟩], filters := [], group_by := [],
    order_by := [], limit := 10 }

/-- A multi-statement text: a terminator followed by a second harmless SELECT,
no DDL/DML keyword anywhere. -/
def twoSelects : String := "SELECT a FROM t; SELECT b FROM u"

/-- History item whose question is upper-case (C9). -/
def itemRev : HistoryItem :=
  { question := some "REVENUE BY REGION", intent := some "metric",
    sql := some "SELECT 1", status := "success" }

/-- A failed response whose JSON body carries an empty-string detail (C10). -/
def resEmptyDetail : ApiResponse :=
  { ok := false, statusText := "Bad Request",
    jsonBody := some { detail := some "", payload := [] } }

/-- A successful response carrying a detail-free payload (C10 witness). -/
def resOkDemo : ApiResponse :=
  { ok := true, statusText := "OK",
    jsonBody := some { detail := none, payload := [("rows", "3")] } }

/- ===== Helper lemmas about the orchestrator state machine ===== -/

/-- A run reports exactly the stages it was given, in order. -/
theorem runStages_map_fst (f : RunFlags) (outcome : PipelineStage → Bool) :
    ∀ (l : List PipelineStage) (h : Bool),
      (runStages f outcome l h).map Prod.fst = l := by
  intro l
  induction l with
  | nil => intro h; rfl
  | cons s rest ih => intro h; simp [runStages, ih]

/-- Once the run is halted, every remaining stage is reported pending. -/
theorem runStages_halted_pending (f : RunFlags) (outcome : PipelineStage → Bool) :
    ∀ (l : List PipelineStage), ∀ p ∈ runStages f outcome l true,
      p.2 = StepStatus.pending := by
  intro l
  induction l with
  | nil => intro p hp; simp [runStages] at hp
  | cons s rest ih =>
    intro p hp
    simp only [runStages, List.mem_cons] at hp
    rcases hp with hp | hp
    · subst hp; simp [stageStatus]
    · have hh : nextHalted f outcome true s = true := by simp [nextHalted]
      rw [hh] at hp
      exact ih p hp

/-- A stage's final status is never `running`. -/
theorem stageStatus_ne_running (f : RunFlags) (outcome : PipelineStage → Bool)
    (h : Bool) (s : PipelineStage) :
    stageStatus f outcome h s ≠ StepStatus.running := by
  unfold stageStatus
  split
  · simp
  · split
    · split <;> simp
    · simp

/-- A stage's final status is one of pending, success, error, skipped. -/
theorem stageStatus_cases (f : RunFlags) (outcome : PipelineStage → Bool)
    (h : Bool) (s : PipelineStage) :
    stageStatus f outcome h s = StepStatus.pending ∨
    stageStatus f outcome h s = StepStatus.success ∨
    stageStatus f outcome h s = StepStatus.error ∨
    stageStatus f outcome h s = StepStatus.skipped := by
  unfold stageStatus
  split
  · exact Or.inl rfl
  · split
    · split
      · exact Or.inr (Or.inl rfl)
      · exact Or.inr (Or.inr (Or.inl rfl))
    · exact Or.inr (Or.inr (Or.inr rfl))

/-- A stage ends skipped only when its toggle is disabled. -/
theorem stageStatus_skipped (f : RunFlags) (outcome : PipelineStage → Bool)
    (h : Bool) (s : PipelineStage) :
    stageStatus f outcome h s = StepStatus.skipped → stageEnabled f s = false := by
  unfold stageStatus
  split
  · simp
  · split
    · split <;> simp
    · rename_i henabled
      intro _
      exact Bool.not_eq_true (stageEnabled f s) ▸ (by simpa using henabled)

/-- A stage that ends in a hard error leaves the run halted. -/
theorem stageStatus_error_halts (f : RunFlags) (outcome : PipelineStage → Bool)
    (h : Bool) (s : PipelineStage) :
    stageStatus f outcome h s = StepStatus.error →
      nextHalted f outcome h s = true := by
  unfold stageStatus nextHalted
  split
  · simp
  · rename_i hh
    split
    · rename_i he
      split
      · simp
      · rename_i ho
        intro _
        simp only [Bool.or_eq_true, Bool.and_eq_true]
        exact Or.inr ⟨he, by simpa using ho⟩
    · simp

/-- Every stage after an error-ending stage is reported pending. -/
theorem runStages_error_pending (f : RunFlags) (outcome : PipelineStage → Bool) :
    ∀ (l : List PipelineStage) (h : Bool),
      List.Pairwise (fun a b => a.2 = StepStatus.error → b.2 = StepStatus.pending)
        (runStages f outcome l h) := by
  intro l
  induction l with
  | nil => intro h; exact List.Pairwise.nil
  | cons s rest ih =>
    intro h
    refine List.Pairwise.cons ?_ (ih _)
    intro b hb herr
    have hnh : nextHalted f outcome h s = true :=
      stageStatus_error_halts f outcome h s herr
    rw [hnh] at hb
    exact runStages_halted_pending f outcome rest b hb

/-- When every stage succeeds, the run marks each enabled stage success and
each disabled stage skipped. -/
theorem runStages_all_ok (f : RunFlags) (outcome : PipelineStage → Bool)
    (hok : ∀ s, outcome s = true) :
    ∀ (l : List PipelineStage),
      runStages f outcome l false = l.map (fun s =>
        (s, if stageEnabled f s then StepStatus.success else StepStatus.skipped)) := by
  intro l
  induction l with
  | nil => rfl
  | cons s rest ih =>
    simp [runStages, stageStatus, nextHalted, hok s, ih]

/-- Membership version of `stageStatus_cases` for a whole run. -/
theorem runStages_status_mem (f : RunFlags) (outcome : PipelineStage → Bool) :
    ∀ (l : List PipelineStage) (h : Bool), ∀ p ∈ runStages f outcome l h,
      p.2 = StepStatus.pending ∨ p.2 = StepStatus.success ∨
      p.2 = StepStatus.error ∨ p.2 = StepStatus.skipped := by
  intro l
  induction l with
  | nil => intro h p hp; simp [runStages] at hp
  | cons s rest ih =>
    intro h p hp
    simp only [runStages, List.mem_cons] at hp
    rcases hp with hp | hp
    · subst hp; exact stageStatus_cases f outcome h s
    · exact ih _ p hp

/-- Membership version of `stageStatus_skipped` for a whole run. -/
theorem runStages_skipped_mem (f : RunFlags) (outcome : PipelineStage → Bool) :
    ∀ (l : List PipelineStage) (h : Bool), ∀ p ∈ runStages f outcome l h,
      p.2 = StepStatus.skipped → stageEnabled f p.1 = false := by
  intro l
  induction l with
  | nil => intro h p hp; simp [runStages] at hp
  | cons s rest ih =>
    intro h p hp hsk
    simp only [runStages, List.mem_cons] at hp
    rcases hp with hp | hp
    · subst hp; exact stageStatus_skipped f outcome h s hsk
    · exact ih _ p hp hsk

/-- A stage that does not end in a hard error leaves the run un-halted. -/
theorem stageStatus_not_error_continues (f : RunFlags) (outcome : PipelineStage → Bool)
    (s : PipelineStage) :
    stageStatus f outcome false s ≠ StepStatus.error →
      nextHalted f outcome false s = false := by
  intro h
  unfold nextHalted
  cases he : stageEnabled f s with
  | false => simp [he]
  | true =>
    cases ho : outcome s with
    | true => simp [he, ho]
    | false =>
      exfalso
      apply h
      simp [stageStatus, he, ho]

/-- A stage the run reaches — no entry before it in the report ended in a
hard error — is reported with its own un-halted status. -/
theorem runStages_no_error_status (f : RunFlags) (outcome : PipelineStage → Bool) :
    ∀ (l : List PipelineStage) (pre post : List (PipelineStage × StepStatus))
      (s : PipelineStage) (st : StepStatus),
      runStages f outcome l false = pre ++ (s, st) :: post →
      (∀ q ∈ pre, q.2 ≠ StepStatus.error) →
      st = stageStatus f outcome false s := by
  intro l
  induction l with
  | nil =>
    intro pre post s st hrun hpre
    cases pre <;> simp [runStages] at hrun
  | cons a rest ih =>
    intro pre post s st hrun hpre
    cases pre with
    | nil =>
      rw [List.nil_append] at hrun
      have hrun2 : (a, stageStatus f outcome false a) ::
          runStages f outcome rest (nextHalted f outcome false a) = (s, st) :: post := hrun
      obtain ⟨hhead, -⟩ := List.cons_eq_cons.mp hrun2
      obtain ⟨ha, hst⟩ := Prod.ext_iff.mp hhead
      subst ha
      exact hst.symm
    | cons q pre2 =>
      rw [List.cons_append] at hrun
      have hrun2 : (a, stageStatus f outcome false a) ::
          runStages f outcome rest (nextHalted f outcome false a) =
            q :: (pre2 ++ (s, st) :: post) := hrun
      obtain ⟨hq, htail⟩ := List.cons_eq_cons.mp hrun2
      have hqe : q.2 ≠ StepStatus.error := hpre q (List.mem_cons_self q pre2)
      have hsa : stageStatus f outcome false a ≠ StepStatus.error := by
        rw [← hq] at hqe; exact hqe
      have hnh : nextHalted f outcome false a = false :=
        stageStatus_not_error_continues f outcome a hsa
      rw [hnh] at htail
      exact ih pre2 post s st htail (fun q2 hq2 => hpre q2 (List.mem_cons_of_mem q hq2))

/- ===== Claim theorems ===== -/

/-- Claim C1: for every fact table with a configured tenant column, a plan
with no filter binding that column to exactly one value always picks up
`E_NO_TENANT_FILTER` from the validator (the check takes no per-request
switch, so it runs on every request), and such a plan is never compiled. -/
theorem C1_tenant_enforcement (env : EngineEnv) (plan : CanonicalPlan)
    (paths : List (List ApprovedJoin)) (m : TableMapping) (c : String)
    (hmap : env.mappings.find? (fun m2 => m2.table == plan.fact_table) = some m)
    (hcol : m.tenant_column = some c)
    (hnof : plan.filters.any (fun f => bindsSingleValue f c) = false) :
    (⟨ECode.E_NO_TENANT_FILTER, c⟩ : VError) ∈ (validatePlan env plan).errors ∧
      compileIfValid env plan paths = none := by
  have hct : checkTenant env plan = [⟨ECode.E_NO_TENANT_FILTER, c⟩] := by
    simp [checkTenant, hmap, hcol, hnof]
  have hmem : (⟨ECode.E_NO_TENANT_FILTER, c⟩ : VError) ∈ (validatePlan env plan).errors := by
    simp [validatePlan, hct]
  refine ⟨hmem, ?_⟩
  have hne : (validatePlan env plan).errors ≠ [] := List.ne_nil_of_mem hmem
  have hie : (validatePlan env plan).errors.isEmpty = false := by
    cases hi : (validatePlan env plan).errors with
    | nil => exact absurd hi hne
    | cons a l => simp [hi]
  simp [compileIfValid, hie]

/-- Witness for C1 at the demo snapshot and the tenant-filter-free plan. -/
theorem C1_tenant_enforcement_witness :
    envDemo.mappings.find? (fun m2 => m2.table == planNoTenant.fact_table) = some mapDemo ∧
    mapDemo.tenant_column = some "tenant_id" ∧
    planNoTenant.filters.any (fun f => bindsSingleValue f "tenant_id") = false ∧
    ((⟨ECode.E_NO_TENANT_FILTER, "tenant_id"⟩ : VError) ∈ (validatePlan envDemo planNoTenant).errors ∧
      compileIfValid envDemo planNoTenant [] = none) :=
  ⟨by decide, by decide, by decide,
    C1_tenant_enforcement envDemo planNoTenant [] mapDemo "tenant_id"
      (by decide) (by decide) (by decide)⟩

/-- Claim C2: the compiler is a pure function of the validated plan, the
resolved join paths and the snapshot — identical inputs always yield
byte-identical SQL text and an identically-ordered parameter list. -/
theorem C2_compiler_determinism (env : EngineEnv) (p1 p2 : CanonicalPlan)
    (j1 j2 : List (List ApprovedJoin)) (hp : p1 = p2) (hj : j1 = j2) :
    (compilePlan env p1 j1).sql = (compilePlan env p2 j2).sql ∧
      (compilePlan env p1 j1).params = (compilePlan env p2 j2).params := by
  subst hp; subst hj; exact ⟨rfl, rfl⟩

/-- Witness for C2: compiling the demo plan twice gives the same text and
parameters. -/
theorem C2_compiler_determinism_witness :
    (compilePlan envDemo planBigLimit []).sql = (compilePlan envDemo planBigLimit []).sql ∧
      (compilePlan envDemo planBigLimit []).params = (compilePlan envDemo planBigLimit []).params :=
  C2_compiler_determinism envDemo planBigLimit planBigLimit [] [] rfl rfl

/-- Claim C3: any text with a statement terminator outside a string is
rejected by the SafetyGuard no matter which keywords precede the terminator,
and the guard fails closed — it accepts only what it positively classifies as
a single SELECT with no unquoted terminator, no DDL/DML keyword and no
catalog reference. -/
theorem C3_safety_fail_closed (sql : String) :
    (hasUnquotedSemicolon sql = true → checkSafety sql = false) ∧
    (checkSafety sql = true →
      isSelectStatement sql = true ∧ hasUnquotedSemicolon sql = false ∧
      (sqlWords sql).any (fun w => ddlDmlKeywords.contains w) = false ∧
      mentionsCatalog sql = false) := by
  constructor
  · intro h
    simp [checkSafety, h]
  · intro h
    simp only [checkSafety, Bool.and_eq_true, Bool.not_eq_true'] at h
    exact ⟨h.1.1.1, h.1.1.2, h.1.2, h.2⟩

/-- Witness for C3: two SELECT statements separated by a terminator carry no
DDL/DML keyword, yet the guard rejects the text. -/
theorem C3_safety_fail_closed_witness :
    hasUnquotedSemicolon twoSelects = true ∧
    (sqlWords twoSelects).any (fun w => ddlDmlKeywords.contains w) = false ∧
    checkSafety twoSelects = false :=
  ⟨by decide, by decide, (C3_safety_fail_closed twoSelects).1 (by decide)⟩

/-- Claim C4: the compiled LIMIT clause is `min(plan.limit, ceiling)` for
every plan; a limit above the ceiling yields the `W_LIMIT_CLAMPED` warning;
and the demo plan with limit 100000 against ceiling 500 validates with no
error, gets the warning, and compiles to SQL ending in `LIMIT 500`. -/
theorem C4_limit_clamped :
    (∀ (env : EngineEnv) (plan : CanonicalPlan) (paths : List (List ApprovedJoin)),
      (compilePlan env plan paths).sql =
        sqlBody plan paths ++ " LIMIT " ++ Nat.repr (Nat.min plan.limit env.maxLimit)) ∧
    (∀ (env : EngineEnv) (plan : CanonicalPlan), env.maxLimit < plan.limit →
      (⟨WCode.W_LIMIT_CLAMPED, Nat.repr plan.limit⟩ : VWarning) ∈ (validatePlan env plan).warnings) ∧
    ((validatePlan envDemo planBigLimit).errors = [] ∧
      (⟨WCode.W_LIMIT_CLAMPED, "100000"⟩ : VWarning) ∈ (validatePlan envDemo planBigLimit).warnings ∧
      (compilePlan envDemo planBigLimit []).sql = sqlBody planBigLimit [] ++ " LIMIT 500") := by
  refine ⟨fun env plan paths => rfl, ?_, by decide, by decide, by decide⟩
  intro env plan hlt
  have hw : limitWarnings env plan = [⟨WCode.W_LIMIT_CLAMPED, Nat.repr plan.limit⟩] := by
    simp [limitWarnings, hlt]
  simp [validatePlan, hw]

/-- Witness for C4 at the demo snapshot: limit 100000 exceeds the ceiling of
500, so the warning is in the batch. -/
theorem C4_limit_clamped_witness :
    envDemo.maxLimit < planBigLimit.limit ∧
    (⟨WCode.W_LIMIT_CLAMPED, Nat.repr planBigLimit.limit⟩ : VWarning) ∈
      (validatePlan envDemo planBigLimit).warnings :=
  ⟨by decide, C4_limit_clamped.2.1 envDemo planBigLimit (by decide)⟩

/-- Claim C5: the validator's batch is the concatenation of every check's
contribution in the fixed order (so it never stops at the first failure, and
anything a check reports is in the batch), and the demo plan with an unknown
table, an unknown column and no tenant filter yields exactly three
ValidationError entries in one call. -/
theorem C5_batch_diagnostics :
    (∀ (env : EngineEnv) (plan : CanonicalPlan),
      (validatePlan env plan).errors =
        checkTables env plan ++ checkColumns env plan ++ checkTenant env plan ++
          checkJoins env plan ++ checkAggs plan) ∧
    (∀ (env : EngineEnv) (plan : CanonicalPlan) (e : VError),
      (e ∈ checkTables env plan ∨ e ∈ checkColumns env plan ∨ e ∈ checkTenant env plan ∨
        e ∈ checkJoins env plan ∨ e ∈ checkAggs plan) →
      e ∈ (validatePlan env plan).errors) ∧
    ((validatePlan envDemo planThreeFaults).errors.map (fun e => e.code) =
        [ECode.E_TABLE_UNKNOWN, ECode.E_COLUMN_UNKNOWN, ECode.E_NO_TENANT_FILTER] ∧
      (validatePlan envDemo planThreeFaults).errors.length = 3) := by
  refine ⟨fun env plan => rfl, ?_, by decide, by decide⟩
  intro env plan e he
  simp only [validatePlan, List.mem_append]
  rcases he with h | h | h | h | h
  · exact Or.inl (Or.inl (Or.inl (Or.inl h)))
  · exact Or.inl (Or.inl (Or.inl (Or.inr h)))
  · exact Or.inl (Or.inl (Or.inr h))
  · exact Or.inl (Or.inr h)
  · exact Or.inr h

/-- Witness for C5: the tenant error reported by its check is in the batch of
the three-fault demo plan. -/
theorem C5_batch_diagnostics_witness :
    (⟨ECode.E_NO_TENANT_FILTER, "tenant_id"⟩ : VError) ∈
      (validatePlan envDemo planThreeFaults).errors :=
  C5_batch_diagnostics.2.1 envDemo planThreeFaults ⟨ECode.E_NO_TENANT_FILTER, "tenant_id"⟩
    (Or.inr (Or.inr (Or.inl (by decide))))

/-- Claim C6 counterexample: with `execute` disabled and a hard error in
`plan_validation`, the `query_execution` stage ends the run still `pending` —
not in one of success/error/skipped, and not `skipped` despite being
disabled. -/
theorem C6_counterexample :
    runPipeline ⟨false, true⟩ (fun s => !(s == PipelineStage.plan_validation)) =
      [(.question_validation, .success), (.intent_detection, .success),
       (.schema_load, .success), (.plan_generation, .success),
       (.plan_validation, .error), (.sql_compilation, .pending),
       (.safety_validation, .pending), (.query_execution, .pending),
       (.narration, .pending)] ∧
    stageEnabled ⟨false, true⟩ PipelineStage.query_execution = false ∧
    ¬(StepStatus.pending = StepStatus.success ∨ StepStatus.pending = StepStatus.error ∨
      StepStatus.pending = StepStatus.skipped) := by
  refine ⟨by decide, by decide, by decide⟩

/-- Claim C6 (amended): every stage starts pending; a run never leaves a
stage in `running` and ends each stage in pending, success, error or skipped;
a stage is marked skipped only when its toggle is disabled; in every run, a
stage the run reaches — no entry before it in the report ended in a hard
error — ends in exactly one of success, error or skipped, and is skipped
exactly when its toggle is disabled; stages after an error-ending stage
remain pending; and skipped, pending, error are pairwise distinct status
values in the step report. -/
theorem C6_stage_lifecycle :
    (∀ p ∈ initialPipelineSteps, p.2 = "pending") ∧
    (∀ (f : RunFlags) (outcome : PipelineStage → Bool) (p : PipelineStage × StepStatus),
      p ∈ runPipeline f outcome →
        p.2 ≠ StepStatus.running ∧
        (p.2 = StepStatus.pending ∨ p.2 = StepStatus.success ∨
          p.2 = StepStatus.error ∨ p.2 = StepStatus.skipped)) ∧
    (∀ (f : RunFlags) (outcome : PipelineStage → Bool) (p : PipelineStage × StepStatus),
      p ∈ runPipeline f outcome → p.2 = StepStatus.skipped →
        stageEnabled f p.1 = false) ∧
    (∀ (f : RunFlags) (outcome : PipelineStage → Bool)
        (pre post : List (PipelineStage × StepStatus)) (s : PipelineStage) (st : StepStatus),
      runPipeline f outcome = pre ++ (s, st) :: post →
      (∀ q ∈ pre, q.2 ≠ StepStatus.error) →
        (stageEnabled f s = false → st = StepStatus.skipped) ∧
        (stageEnabled f s = true → st = StepStatus.success ∨ st = StepStatus.error) ∧
        (st = StepStatus.success ∨ st = StepStatus.error ∨ st = StepStatus.skipped)) ∧
    (∀ (f : RunFlags) (outcome : PipelineStage → Bool),
      List.Pairwise (fun a b => a.2 = StepStatus.error → b.2 = StepStatus.pending)
        (runPipeline f outcome)) ∧
    (StepStatus.skipped ≠ StepStatus.pending ∧ StepStatus.skipped ≠ StepStatus.error ∧
      StepStatus.pending ≠ StepStatus.error) := by
  refine ⟨by decide, ?_, ?_, ?_,
    fun f outcome => runStages_error_pending f outcome allStages false,
    by decide, by decide, by decide⟩
  · intro f outcome p hp
    have hc := runStages_status_mem f outcome allStages false p hp
    refine ⟨?_, hc⟩
    rcases hc with h | h | h | h <;> simp [h]
  · intro f outcome p hp hsk
    exact runStages_skipped_mem f outcome allStages false p hp hsk
  · intro f outcome pre post s st hrun hpre
    have hst : st = stageStatus f outcome false s :=
      runStages_no_error_status f outcome allStages pre post s st hrun hpre
    subst hst
    by_cases he : stageEnabled f s = true
    · by_cases ho : outcome s = true
      · simp [stageStatus, he, ho]
      · simp [stageStatus, he, ho]
    · simp [stageStatus, he]

/-- Witness for C6 (amended) at a concrete run with `execute` disabled where
only the later narration stage errors: the reached `query_execution` stage is
skipped, not pending and not success/error. -/
theorem C6_stage_lifecycle_witness :
    (stageEnabled ⟨false, true⟩ PipelineStage.query_execution = false →
      StepStatus.skipped = StepStatus.skipped) ∧
    (stageEnabled ⟨false, true⟩ PipelineStage.query_execution = true →
      StepStatus.skipped = StepStatus.success ∨ StepStatus.skipped = StepStatus.error) ∧
    (StepStatus.skipped = StepStatus.success ∨ StepStatus.skipped = StepStatus.error ∨
      StepStatus.skipped = StepStatus.skipped) :=
  C6_stage_lifecycle.2.2.2.1 ⟨false, true⟩ (fun s => !(s == PipelineStage.narration))
    [(.question_validation, .success), (.intent_detection, .success),
     (.schema_load, .success), (.plan_generation, .success),
     (.plan_validation, .success), (.sql_compilation, .success),
     (.safety_validation, .success)]
    [(.narration, .error)]
    PipelineStage.query_execution StepStatus.skipped (by decide)
    (by intro q hq; simp at hq
        rcases hq with rfl | rfl | rfl | rfl | rfl | rfl | rfl <;> decide)

/-- Claim C7 counterexample: the step identifiers the frontend fixes are not
the names the claim lists (`validate_question`, `detect_intent`, ...). -/
theorem C7_counterexample :
    ¬(PIPELINE_STEPS.map (fun d => d.id) =
      ["validate_question", "detect_intent", "load_schema", "generate_plan",
       "validate_plan", "compile_sql", "validate_safety", "execute_query", "narrate"]) := by
  decide

/-- Claim C7 (amended): the pipeline consists of exactly nine named stages in
the fixed order question_validation, intent_detection, schema_load,
plan_generation, plan_validation, sql_compilation, safety_validation,
query_execution, narration; the identifier set is fixed, duplicate-free and
known in advance, and every run reports exactly one result per stage in that
order. -/
theorem C7_pipeline_stages :
    PIPELINE_STEPS.map (fun d => d.id) =
      ["question_validation", "intent_detection", "schema_load", "plan_generation",
       "plan_validation", "sql_compilation", "safety_validation", "query_execution",
       "narration"] ∧
    PIPELINE_STEPS.length = 9 ∧
    (PIPELINE_STEPS.map (fun d => d.id)).Nodup ∧
    allStages.map stageId = PIPELINE_STEPS.map (fun d => d.id) ∧
    (∀ (f : RunFlags) (outcome : PipelineStage → Bool),
      (runPipeline f outcome).map (fun p => stageId p.1) =
        PIPELINE_STEPS.map (fun d => d.id)) := by
  refine ⟨by decide, by decide, by decide, by decide, ?_⟩
  intro f outcome
  have h1 : (runPipeline f outcome).map Prod.fst = allStages :=
    runStages_map_fst f outcome allStages false
  rw [show (fun p : PipelineStage × StepStatus => stageId p.1) = stageId ∘ Prod.fst from rfl,
    ← List.map_map, h1]
  decide

/-- Witness for C7 (amended) at a concrete run. -/
theorem C7_pipeline_stages_witness :
    (runPipeline ⟨true, true⟩ (fun _ => true)).map (fun p => stageId p.1) =
      PIPELINE_STEPS.map (fun d => d.id) :=
  C7_pipeline_stages.2.2.2.2 ⟨true, true⟩ (fun _ => true)

/-- Claim C8: every run reports all nine stages in order (none silently
omitted), and after any stage that ends in a hard error every later stage —
in particular every later mandatory stage — is reported pending. -/
theorem C8_error_halts_downstream (f : RunFlags) (outcome : PipelineStage → Bool) :
    (runPipeline f outcome).map Prod.fst = allStages ∧
    (runPipeline f outcome).length = 9 ∧
    List.Pairwise (fun a b => a.2 = StepStatus.error → b.2 = StepStatus.pending)
      (runPipeline f outcome) := by
  refine ⟨runStages_map_fst f outcome allStages false, ?_,
    runStages_error_pending f outcome allStages false⟩
  have h2 := congrArg List.length (runStages_map_fst f outcome allStages false)
  rw [List.length_map] at h2
  exact h2.trans (by decide)

/-- Witness for C8 at a run whose compile stage errors. -/
theorem C8_error_halts_downstream_witness :
    (runPipeline ⟨true, true⟩ (fun s => !(s == PipelineStage.sql_compilation))).map Prod.fst
      = allStages ∧
    (runPipeline ⟨true, true⟩ (fun s => !(s == PipelineStage.sql_compilation))).length = 9 ∧
    List.Pairwise (fun a b => a.2 = StepStatus.error → b.2 = StepStatus.pending)
      (runPipeline ⟨true, true⟩ (fun s => !(s == PipelineStage.sql_compilation))) :=
  C8_error_halts_downstream ⟨true, true⟩ (fun s => !(s == PipelineStage.sql_compilation))

/-- Claim C9 counterexample: with the upper-case question "REVENUE BY REGION"
and search term "Rev", the page displays the item (the code lowercases the
field), but the claim's condition — the lowercased term being a substring of
the field as it is — rejects it, so the stated equivalence fails. -/
theorem C9_counterexample :
    ¬(itemRev ∈ filteredHistory [itemRev] "Rev" "all" ↔
      itemRev ∈ [itemRev] ∧ claimedHistoryMatch itemRev "Rev" "all" = true) := by
  decide

/-- Claim C9 (amended): an item appears in the filtered history exactly when
it is in the history and (the search term is empty, or the lowercased term is
a substring of the lowercased question, intent, or sql) and (the status
filter is "all", or the item's status equals the selected filter). -/
theorem C9_history_filter (history : List HistoryItem)
    (searchTerm statusFilter : String) (it : HistoryItem) :
    it ∈ filteredHistory history searchTerm statusFilter ↔
      it ∈ history ∧ historyMatches it searchTerm statusFilter = true := by
  unfold filteredHistory historyMatches
  by_cases h1 : searchTerm == ""
  · by_cases h2 : statusFilter == "all"
    · simp [h1, h2]
    · simp [h1, h2, List.mem_filter]
  · by_cases h2 : statusFilter == "all"
    · simp [h1, h2, List.mem_filter]
    · simp [h1, h2, List.mem_filter, and_assoc]
      tauto

/-- Witness for C9 (amended): with an empty term and filter "all" the item is
displayed. -/
theorem C9_history_filter_witness :
    itemRev ∈ filteredHistory [itemRev] "" "all" :=
  (C9_history_filter [itemRev] "" "all" itemRev).mpr (by decide)

/-- Claim C10 counterexample: a failed response whose body is
`{"detail": ""}` makes the helper throw the status text ("Bad Request"),
not the present-but-empty detail field the claim prescribes. -/
theorem C10_counterexample :
    api resEmptyDetail = Except.error "Bad Request" ∧
    claimedApiError resEmptyDetail = "" ∧
    api resEmptyDetail ≠ Except.error (claimedApiError resEmptyDetail) := by
  refine ⟨rfl, rfl, ?_⟩
  intro h
  rw [show api resEmptyDetail = Except.error "Bad Request" from rfl,
    show claimedApiError resEmptyDetail = "" from rfl] at h
  injection h with h3
  exact absurd h3 (by decide)

/-- Claim C10 (amended): the helper returns the parsed body exactly when the
response is ok; when the response is not ok it throws an Error carrying the
detail field, falling back to the status text when detail is absent or the
empty string; a body that fails to parse is treated as the empty object. -/
theorem C10_api_helper (res : ApiResponse) :
    (res.ok = true → api res = Except.ok (res.jsonBody.getD emptyBody)) ∧
    (res.ok = false →
      api res = Except.error (jsOrElse (res.jsonBody.getD emptyBody).detail res.statusText)) ∧
    (res.jsonBody = none → res.ok = true → api res = Except.ok emptyBody) ∧
    (res.jsonBody = none → res.ok = false → api res = Except.error res.statusText) := by
  refine ⟨?_, ?_, ?_, ?_⟩
  · intro h; simp [api, h]
  · intro h; simp [api, h]
  · intro h1 h2; simp [api, h1, h2]
  · intro h1 h2; simp [api, h1, h2, emptyBody, jsOrElse]

/-- Witness for C10 (amended): a successful response returns its parsed body. -/
theorem C10_api_helper_witness :
    api resOkDemo = Except.ok { detail := none, payload := [("rows", "3")] } :=
  (C10_api_helper resOkDemo).1 rfl
